import Mathlib

/-!
Shallow embedding of `gitup.py`, a CLI that uploads, downloads, lists and
deletes files against a remote repository-content API.

Modelling conventions:
- Python strings are Lean `String`s; character-level operations
  (`split(':', 1)`, `startswith`, `in`) are modelled on `String.toList`.
- The remote API (PyGithub calls) is an oracle `Remote`: a record of response
  functions.  A `GithubException` with HTTP status `s` is `ApiResult.err s`.
- The local filesystem is an oracle `LocalFS`.
- Each command handler is a function producing a `Run`: the ordered list of
  remote API calls it issued, the local file writes and directory creations it
  performed, the token-file write (for `login`) and the process outcome
  (`completed` normal return vs `exited c` for `sys.exit(c)`).
- The decorative spinner, colours and printed messages are not modelled
  (the spec itself declares them behaviourally irrelevant); error *kinds*
  are kept as an `ErrKind` tag so that distinct error messages are
  distinguishable.
-/

namespace Gitup

/-- Result of one remote API call: success, or a GithubException carrying an
HTTP status code. -/
inductive ApiResult (α : Type) where
  | ok : α → ApiResult α
  | err : Nat → ApiResult α
deriving DecidableEq, Repr

/-- A remote content entry as returned by get-contents: name, type tag
("file" or "dir"), sha, and base64 text content. -/
structure Entry where
  name : String
  typ : String
  sha : String
  content : String
deriving DecidableEq, Repr

/-- What get-contents returns: a single file entry or a directory listing. -/
inductive Contents where
  | file : Entry → Contents
  | dir : List Entry → Contents
deriving DecidableEq, Repr

/-- Oracle for the remote API, keyed by the paths the command passes.  All
calls after a successful get-repo act on that repository, so the repository
handle is left implicit in the response functions. -/
structure Remote where
  getRepo : String → ApiResult Unit
  getContents : String → ApiResult Contents
  updateFile : String → List Nat → String → ApiResult Unit
  createFile : String → List Nat → ApiResult Unit
  deleteFile : String → String → ApiResult Unit
  listRepos : ApiResult (List String)

/-- Oracle for the local filesystem.  `rglobFiles d` is the list of paths of
regular files strictly under directory `d`, relative to `d`, in the
iteration order of `Path.rglob`. -/
structure LocalFS where
  isFile : String → Bool
  isDir : String → Bool
  read : String → List Nat
  rglobFiles : String → List String

/-- One remote API call, as recorded in a command's trace. -/
inductive Call where
  | getRepo (repo : String)
  | getContents (path : String)
  | updateFile (path : String) (content : List Nat) (sha : String)
  | createFile (path : String) (content : List Nat)
  | deleteFile (path : String) (sha : String)
  | listRepos
  | verifyUser
deriving DecidableEq, Repr

/-- Process outcome: `exited c` models `sys.exit(c)` (or a fatal uncaught
exception), `completed` a normal return from the handler. -/
inductive Outcome where
  | exited (code : Nat)
  | completed
deriving DecidableEq, Repr

/-- Kind of the one-line error message printed before an exit. -/
inductive ErrKind where
  | argMissing
  | authRequired
  | invalidRepoFormat
  | fileNotFound
  | sourceNotFound
  | invalidSource
  | repoNotFound
  | uploadFailed
  | downloadFailed
  | pathMissing
  | cannotRemoveDir
  | removeFailed
  | listFailed
  | emptyToken
  | authFailed
  | unexpected
deriving DecidableEq, Repr

/-- Direction a `copy` invocation was dispatched to. -/
inductive Dir where
  | upload
  | download
deriving DecidableEq, Repr

/-- Observable effects of one command invocation. -/
structure Run where
  calls : List Call := []
  writes : List (String × List Nat) := []
  mkdirs : List String := []
  tokenWrite : Option String := none
  direction : Option Dir := none
  error : Option ErrKind := none
  outcome : Outcome
deriving DecidableEq, Repr

/-! ## Python string and path helpers -/

/-- Split a character list at the first occurrence of `':'`; `none` when the
list has no `':'`.  Models the interesting case of `s.split(':', 1)`. -/
def splitFirstColon : List Char → Option (List Char × List Char)
  | [] => none
  | c :: cs =>
    if c = ':' then some ([], cs)
    else
      match splitFirstColon cs with
      | none => none
      | some (l, r) => some (c :: l, r)

/-- Python `s.startswith(pre)`, at character level. -/
def py_startswith (s pre : String) : Bool :=
  s.toList.take pre.toList.length == pre.toList

/-- Python `c in s` for a single character. -/
def py_contains (s : String) (c : Char) : Bool :=
  s.toList.contains c

/-- Python `os.path.basename` on POSIX: the part after the last slash. -/
def basename (p : String) : String :=
  ⟨p.toList.foldl (fun acc c => if c = '/' then [] else acc ++ [c]) []⟩

/-- Everything up to and including the last slash of the list (empty when
there is no slash). -/
def headThroughLastSlash (l : List Char) : List Char :=
  (l.foldl
    (fun (acc : List Char × List Char) c =>
      if c = '/' then (acc.1 ++ acc.2 ++ ['/'], []) else (acc.1, acc.2 ++ [c]))
    ([], [])).1

/-- Python `os.path.dirname` on POSIX: head up to the last slash, with
trailing slashes stripped unless the head is all slashes. -/
def dirname (p : String) : String :=
  let head := headThroughLastSlash p.toList
  if head ≠ [] ∧ ¬ head.all (fun c => c = '/') then
    ⟨(head.reverse.dropWhile (fun c => c = '/')).reverse⟩
  else
    ⟨head⟩

/-- Python `os.path.join(a, b)` on POSIX for two components. -/
def path_join (a b : String) : String :=
  if py_startswith b "/" then b
  else if a = "" ∨ a.toList.getLast? = some '/' then a ++ b
  else a ++ "/" ++ b

/-! ## base64 (models `base64.b64decode`, library code not under src) -/

/-- One token of a base64 text after filtering: a 6-bit value or padding. -/
inductive B64Tok where
  | val : Nat → B64Tok
  | pad : B64Tok
deriving DecidableEq, Repr

/-- Map a character to its base64 token; `none` for characters outside the
alphabet, which `b64decode` discards before decoding. -/
def b64tok (c : Char) : Option B64Tok :=
  if 'A' ≤ c ∧ c ≤ 'Z' then some (.val (c.toNat - 65))
  else if 'a' ≤ c ∧ c ≤ 'z' then some (.val (c.toNat - 97 + 26))
  else if '0' ≤ c ∧ c ≤ '9' then some (.val (c.toNat - 48 + 52))
  else if c = '+' then some (.val 62)
  else if c = '/' then some (.val 63)
  else if c = '=' then some .pad
  else none

/-- Decode a filtered base64 token stream four tokens at a time; `none` on a
malformed stream (bad length or misplaced padding). -/
def decodeQuads : List B64Tok → Option (List Nat)
  | [] => some []
  | .val a :: .val b :: .pad :: .pad :: [] =>
    some [a * 4 + b / 16]
  | .val a :: .val b :: .val c :: .pad :: [] =>
    some [a * 4 + b / 16, (b % 16) * 16 + c / 4]
  | .val a :: .val b :: .val c :: .val d :: rest =>
    match decodeQuads rest with
    | some bs => some ((a * 4 + b / 16) :: ((b % 16) * 16 + c / 4) :: ((c % 4) * 64 + d) :: bs)
    | none => none
  | _ => none

/-- Python `base64.b64decode` (default `validate=False`): discard characters
outside the alphabet, then decode; `none` models `binascii.Error`. -/
def b64decode (s : String) : Option (List Nat) :=
  decodeQuads (s.toList.filterMap b64tok)

/-! ## parse_repo_path -/

/-- Embeds `parse_repo_path`: split once on `':'`, left part is the
repository name, right part (empty when there is no colon) the in-repo path;
`none` (the Python `(None, None)`) when the input is empty or the repository
name is empty or has no `'/'`. -/
def parse_repo_path (repoPath : String) : Option (String × String) :=
  if repoPath = "" then none
  else
    let parts : List Char × List Char :=
      match splitFirstColon repoPath.toList with
      | none => (repoPath.toList, [])
      | some (l, r) => (l, r)
    if parts.1 = [] ∨ ¬ parts.1.contains '/' then none
    else some (⟨parts.1⟩, ⟨parts.2⟩)

/-! ## Shared upload step -/

/-- Result of the per-path update-or-create block shared by `send_file` and
both upload branches of `copy`. -/
inductive UpResult where
  | updated : String → UpResult
  | created : UpResult
  | failedOther : Nat → UpResult
  | createFailed : Nat → UpResult
  | dirTarget : UpResult
deriving DecidableEq, Repr

/-- Embeds the `try: contents = repo.get_contents(p); repo.update_file(p, m,
content, contents.sha) except GithubException as e: if e.status == 404:
repo.create_file(p, m, content) else: ...` block.  Returns the calls issued
and the result.  `dirTarget` is the case where get-contents returns a
listing, so `contents.sha` raises an AttributeError. -/
def uploadOne (rmt : Remote) (path : String) (content : List Nat) :
    List Call × UpResult :=
  match rmt.getContents path with
  | .ok (.file e) =>
    match rmt.updateFile path content e.sha with
    | .ok _ =>
      ([.getContents path, .updateFile path content e.sha], .updated e.sha)
    | .err s =>
      if s = 404 then
        match rmt.createFile path content with
        | .ok _ =>
          ([.getContents path, .updateFile path content e.sha,
            .createFile path content], .created)
        | .err s2 =>
          ([.getContents path, .updateFile path content e.sha,
            .createFile path content], .createFailed s2)
      else ([.getContents path, .updateFile path content e.sha], .failedOther s)
  | .ok (.dir _) => ([.getContents path], .dirTarget)
  | .err s =>
    if s = 404 then
      match rmt.createFile path content with
      | .ok _ => ([.getContents path, .createFile path content], .created)
      | .err s2 => ([.getContents path, .createFile path content], .createFailed s2)
    else ([.getContents path], .failedOther s)

/-- Models the Python fallback `repo_file_path or os.path.basename(local)`:
an empty in-repo path falls back to the local file's base name. -/
def targetName (repoPath localFile : String) : String :=
  if repoPath = "" then basename localFile else repoPath

/-- Whether an upload step let the handler continue (the file was updated
or created). -/
def UpResult.isSuccess : UpResult → Bool
  | .updated _ => true
  | .created => true
  | _ => false

/-! ## send -/

/-- Embeds `send_file`.  `token` is the content of the token file (`none`
when the file is absent, making `get_github_client` exit 1). -/
def send_file (token : Option String) (fs : LocalFS) (rmt : Remote)
    (file repoArg : String) : Run :=
  if file = "" then { outcome := .exited 1, error := some .argMissing }
  else if repoArg = "" then { outcome := .exited 1, error := some .argMissing }
  else
    match token with
    | none => { outcome := .exited 1, error := some .authRequired }
    | some _ =>
      match parse_repo_path repoArg with
      | none => { outcome := .exited 1, error := some .invalidRepoFormat }
      | some (repoName, repoFilePath) =>
        if fs.isFile file = false then
          { outcome := .exited 1, error := some .fileNotFound }
        else
          match rmt.getRepo repoName with
          | .err _ =>
            { calls := [.getRepo repoName], outcome := .exited 1,
              error := some .repoNotFound }
          | .ok _ =>
            let fileName := targetName repoFilePath file
            let content := fs.read file
            let up := uploadOne rmt fileName content
            match up.2 with
            | .updated _ =>
              { calls := .getRepo repoName :: up.1, outcome := .completed }
            | .created =>
              { calls := .getRepo repoName :: up.1, outcome := .completed }
            | .failedOther _ =>
              { calls := .getRepo repoName :: up.1, outcome := .exited 1,
                error := some .uploadFailed }
            | .createFailed _ =>
              { calls := .getRepo repoName :: up.1, outcome := .exited 1,
                error := some .unexpected }
            | .dirTarget =>
              { calls := .getRepo repoName :: up.1, outcome := .exited 1,
                error := some .unexpected }

/-! ## copy -/

/-- Loop of the directory-upload branch of `copy`: for each file path `rel`
(relative to the source directory) upload to `os.path.join(repo_path, rel)`
(the source's trailing `.replace(chr(92), chr(47))` is the identity on
POSIX paths and is omitted), with the same update-or-create fallback as
`send`; the first fatal failure exits 1, leaving earlier uploads in place. -/
def uploadLoop (rmt : Remote) (repoPath : String) (read : String → List Nat) :
    List String → List Call → Run
  | [], acc =>
    { calls := acc, direction := some .upload, outcome := .completed }
  | rel :: rest, acc =>
    let dest := path_join repoPath rel
    let up := uploadOne rmt dest (read rel)
    match up.2 with
    | .updated _ => uploadLoop rmt repoPath read rest (acc ++ up.1)
    | .created => uploadLoop rmt repoPath read rest (acc ++ up.1)
    | _ =>
      { calls := acc ++ up.1, direction := some .upload,
        outcome := .exited 1, error := some .uploadFailed }

/-- Upload direction of `copy` (local source to remote destination). -/
def copyUpload (fs : LocalFS) (rmt : Remote) (src dst : String) : Run :=
  match parse_repo_path dst with
  | none =>
    { direction := some .upload, outcome := .exited 1,
      error := some .invalidRepoFormat }
  | some (repoName, repoPath) =>
    match rmt.getRepo repoName with
    | .err _ =>
      { calls := [.getRepo repoName], direction := some .upload,
        outcome := .exited 1, error := some .repoNotFound }
    | .ok _ =>
      if fs.isFile src = false ∧ fs.isDir src = false then
        { calls := [.getRepo repoName], direction := some .upload,
          outcome := .exited 1, error := some .sourceNotFound }
      else if fs.isDir src then
        let r := uploadLoop rmt repoPath (fun rel => fs.read (path_join src rel))
          (fs.rglobFiles src) []
        { r with calls := .getRepo repoName :: r.calls }
      else if fs.isFile src then
        let destPath := targetName repoPath src
        let up := uploadOne rmt destPath (fs.read src)
        match up.2 with
        | .updated _ =>
          { calls := .getRepo repoName :: up.1, direction := some .upload,
            outcome := .completed }
        | .created =>
          { calls := .getRepo repoName :: up.1, direction := some .upload,
            outcome := .completed }
        | _ =>
          { calls := .getRepo repoName :: up.1, direction := some .upload,
            outcome := .exited 1, error := some .uploadFailed }
      else
        { calls := [.getRepo repoName], direction := some .upload,
          outcome := .exited 1, error := some .invalidSource }

/-- Loop of the directory-download branch of `copy`: write every immediate
entry of type "file" into `dst` (decode failures raise out of the handler). -/
def downloadLoop (dst : String) : List Entry →
    List (String × List Nat) → Option (List (String × List Nat))
  | [], acc => some acc
  | e :: rest, acc =>
    if e.typ = "file" then
      match b64decode e.content with
      | some bytes => downloadLoop dst rest (acc ++ [(path_join dst e.name, bytes)])
      | none => none
    else downloadLoop dst rest acc

/-- Download direction of `copy` (remote source to local destination). -/
def copyDownload (rmt : Remote) (src dst : String) : Run :=
  match parse_repo_path src with
  | none =>
    { direction := some .download, outcome := .exited 1,
      error := some .invalidRepoFormat }
  | some (repoName, repoPath) =>
    match rmt.getRepo repoName with
    | .err _ =>
      { calls := [.getRepo repoName], direction := some .download,
        outcome := .exited 1, error := some .repoNotFound }
    | .ok _ =>
      match rmt.getContents repoPath with
      | .err _ =>
        { calls := [.getRepo repoName, .getContents repoPath],
          direction := some .download, outcome := .exited 1,
          error := some .downloadFailed }
      | .ok (.dir entries) =>
        match downloadLoop dst entries [] with
        | some ws =>
          { calls := [.getRepo repoName, .getContents repoPath],
            writes := ws, mkdirs := [dst], direction := some .download,
            outcome := .completed }
        | none =>
          { calls := [.getRepo repoName, .getContents repoPath],
            mkdirs := [dst], direction := some .download,
            outcome := .exited 1, error := some .unexpected }
      | .ok (.file e) =>
        match b64decode e.content with
        | none =>
          { calls := [.getRepo repoName, .getContents repoPath],
            direction := some .download, outcome := .exited 1,
            error := some .unexpected }
        | some bytes =>
          let localPath := path_join dst e.name
          { calls := [.getRepo repoName, .getContents repoPath],
            writes := [(localPath, bytes)], mkdirs := [dirname localPath],
            direction := some .download, outcome := .completed }

/-- Embeds `copy`: argument checks, authentication, then the direction
heuristic `if src.startswith('.') or not ':' in src` dispatching to the
upload or the download branch. -/
def copy (token : Option String) (fs : LocalFS) (rmt : Remote)
    (src dst : String) : Run :=
  if src = "" then { outcome := .exited 1, error := some .argMissing }
  else if dst = "" then { outcome := .exited 1, error := some .argMissing }
  else
    match token with
    | none => { outcome := .exited 1, error := some .authRequired }
    | some _ =>
      if py_startswith src "." || ! py_contains src ':' then
        copyUpload fs rmt src dst
      else
        copyDownload rmt src dst

/-! ## rm -/

/-- Embeds `remove_file`: non-empty in-repo path required; the entry is
fetched for its sha; a directory listing aborts with no delete; otherwise
delete with that sha.  A 404 from any of the remote calls prints
"File not found", any other status "Remove failed"; both exit 1. -/
def remove_file (token : Option String) (rmt : Remote) (fileArg : String) : Run :=
  if fileArg = "" then { outcome := .exited 1, error := some .argMissing }
  else
    match token with
    | none => { outcome := .exited 1, error := some .authRequired }
    | some _ =>
      match parse_repo_path fileArg with
      | none => { outcome := .exited 1, error := some .invalidRepoFormat }
      | some (repoName, repoPath) =>
        if repoPath = "" then
          { outcome := .exited 1, error := some .pathMissing }
        else
          match rmt.getRepo repoName with
          | .err s =>
            { calls := [.getRepo repoName], outcome := .exited 1,
              error := some (if s = 404 then .fileNotFound else .removeFailed) }
          | .ok _ =>
            match rmt.getContents repoPath with
            | .err s =>
              { calls := [.getRepo repoName, .getContents repoPath],
                outcome := .exited 1,
                error := some (if s = 404 then .fileNotFound else .removeFailed) }
            | .ok (.dir _) =>
              { calls := [.getRepo repoName, .getContents repoPath],
                outcome := .exited 1, error := some .cannotRemoveDir }
            | .ok (.file e) =>
              match rmt.deleteFile repoPath e.sha with
              | .ok _ =>
                { calls := [.getRepo repoName, .getContents repoPath,
                    .deleteFile repoPath e.sha],
                  outcome := .completed }
              | .err s =>
                { calls := [.getRepo repoName, .getContents repoPath,
                    .deleteFile repoPath e.sha],
                  outcome := .exited 1,
                  error := some (if s = 404 then .fileNotFound else .removeFailed) }

/-! ## ls -/

/-- Embeds `list_files`.  `repoArg` is the parsed positional argument (the
argparse default is ":."); a falsy (empty) value also falls back to ":.",
which lists the authenticated user's repositories. -/
def list_files (token : Option String) (rmt : Remote) (repoArg : String) : Run :=
  match token with
  | none => { outcome := .exited 1, error := some .authRequired }
  | some _ =>
    let arg := if repoArg = "" then ":." else repoArg
    if arg = ":." then
      match rmt.listRepos with
      | .ok _ => { calls := [.listRepos], outcome := .completed }
      | .err _ =>
        { calls := [.listRepos], outcome := .exited 1, error := some .listFailed }
    else
      match parse_repo_path arg with
      | none => { outcome := .exited 1, error := some .invalidRepoFormat }
      | some (repoName, repoPath) =>
        match rmt.getRepo repoName with
        | .err s =>
          { calls := [.getRepo repoName], outcome := .exited 1,
            error := some (if s = 404 then .fileNotFound else .listFailed) }
        | .ok _ =>
          match rmt.getContents repoPath with
          | .err s =>
            { calls := [.getRepo repoName, .getContents repoPath],
              outcome := .exited 1,
              error := some (if s = 404 then .fileNotFound else .listFailed) }
          | .ok _ =>
            { calls := [.getRepo repoName, .getContents repoPath],
              outcome := .completed }

/-! ## login -/

/-- Embeds `login`.  `inp` is the result of the token prompt (`none` models a
KeyboardInterrupt, which exits 0); `verify t` is the authenticated
verification call `Github(t).get_user().login`.  The token file is written
(`tokenWrite`) only after verification succeeds. -/
def login (inp : Option String) (verify : String → ApiResult String) : Run :=
  match inp with
  | none => { outcome := .exited 0 }
  | some raw =>
    let token := raw.trim
    if token = "" then { outcome := .exited 1, error := some .emptyToken }
    else
      match verify token with
      | .ok _ =>
        { calls := [.verifyUser], tokenWrite := some token, outcome := .completed }
      | .err _ =>
        { calls := [.verifyUser], outcome := .exited 1, error := some .authFailed }

/-- The path of a get-contents call, if the call is one. -/
def callContentPath : Call → Option String
  | .getContents p => some p
  | _ => none

/-- The paths of the get-contents calls of a trace, in order: one per
attempted upload target. -/
def contentPaths (cs : List Call) : List String :=
  cs.filterMap callContentPath

/-! ## Concrete oracles used by witnesses and counterexamples -/

/-- A local filesystem with a single directory "d" whose recursive file
listing is a/b.txt, a/c/d.txt; every other path is a regular file. -/
def fsTree : LocalFS :=
  ⟨fun p => p != "d", fun p => p == "d", fun _ => [104],
   fun _ => ["a/b.txt", "a/c/d.txt"]⟩

/-- A local filesystem on which every path is a regular file with content
[104] ("h"). -/
def fsAll : LocalFS := ⟨fun _ => true, fun _ => false, fun _ => [104], fun _ => []⟩

/-- A remote on which the repository exists, no path exists yet (every
get-contents answers 404) and every write succeeds. -/
def rmt404 : Remote :=
  ⟨fun _ => .ok (), fun _ => .err 404, fun _ _ _ => .ok (), fun _ _ => .ok (),
   fun _ _ => .ok (), .ok []⟩

/-- A remote on which path "f" is a file with sha "sha1" and content "hi",
and every write succeeds. -/
def rmtFile : Remote :=
  ⟨fun _ => .ok (),
   fun _ => .ok (.file ⟨"f.txt", "file", "sha1", "aGk="⟩),
   fun _ _ _ => .ok (), fun _ _ => .ok (), fun _ _ => .ok (), .ok []⟩

/-- Like `rmtFile`, but every update fails with HTTP 404 (for example the
file was deleted between the read and the write). -/
def rmtUpd404 : Remote :=
  ⟨fun _ => .ok (),
   fun _ => .ok (.file ⟨"f.txt", "file", "sha1", "aGk="⟩),
   fun _ _ _ => .err 404, fun _ _ => .ok (), fun _ _ => .ok (), .ok []⟩

/-- A remote where no path exists yet (get-contents answers 404) and every
create succeeds, except that reading "dest/a/c/d.txt" fails with HTTP 403. -/
def rmt403c : Remote :=
  ⟨fun _ => .ok (),
   fun p => if p == "dest/a/c/d.txt" then .err 403 else .err 404,
   fun _ _ _ => .ok (), fun _ _ => .ok (), fun _ _ => .ok (), .ok []⟩

/-! ## Characterisation of the path parser -/

/-- Spec-side description of the left part of the split: the characters
before the first colon. -/
def leftOfColon (s : String) : String :=
  ⟨s.toList.takeWhile (fun c => c ≠ ':')⟩

/-- Spec-side description of the right part of the split: the characters
after the first colon, empty when there is no colon. -/
def rightOfColon (s : String) : String :=
  ⟨(s.toList.dropWhile (fun c => c ≠ ':')).tail⟩

lemma splitFirstColon_eq (l : List Char) :
    splitFirstColon l =
      if ':' ∈ l then
        some (l.takeWhile (fun c => c ≠ ':'), (l.dropWhile (fun c => c ≠ ':')).tail)
      else none := by
  induction l with
  | nil => simp [splitFirstColon]
  | cons c cs ih =>
    by_cases hc : c = ':'
    · subst hc
      simp [splitFirstColon]
    · simp only [splitFirstColon, if_neg hc, ih]
      by_cases h : ':' ∈ cs
      · simp [h, hc, List.takeWhile_cons, List.dropWhile_cons, Ne.symm hc]
      · simp [h, hc, Ne.symm hc]

lemma parse_repo_path_eq (s : String) :
    parse_repo_path s =
      if leftOfColon s = "" ∨ ¬ (leftOfColon s).toList.contains '/' then none
      else some (leftOfColon s, rightOfColon s) := by
  by_cases hs : s = ""
  · subst hs
    rfl
  · unfold parse_repo_path
    simp only [if_neg hs, splitFirstColon_eq]
    by_cases hcol : ':' ∈ s.toList
    · rw [if_pos hcol]
      exact if_congr (or_congr String.ext_iff.symm Iff.rfl) rfl rfl
    · rw [if_neg hcol]
      have h1 : s.toList.takeWhile (fun c => c ≠ ':') = s.toList := by
        rw [List.takeWhile_eq_self_iff]
        intro x hx
        simp only [ne_eq, decide_eq_true_eq]
        exact fun h => hcol (h ▸ hx)
      have h2 : s.toList.dropWhile (fun c => c ≠ ':') = [] := by
        rw [List.dropWhile_eq_nil_iff]
        intro x hx
        simp only [ne_eq, decide_eq_true_eq]
        exact fun h => hcol (h ▸ hx)
      simp only [leftOfColon, rightOfColon, h1, h2]
      exact if_congr (or_congr String.ext_iff.symm Iff.rfl) rfl rfl

lemma parse_some_fields {s n p : String} (h : parse_repo_path s = some (n, p)) :
    n = leftOfColon s ∧ p = rightOfColon s := by
  rw [parse_repo_path_eq] at h
  by_cases hc : leftOfColon s = "" ∨ ¬ (leftOfColon s).toList.contains '/'
  · rw [if_pos hc] at h
    exact absurd h (by simp)
  · rw [if_neg hc] at h
    have h2 := Option.some.inj h
    exact ⟨(congrArg Prod.fst h2).symm, (congrArg Prod.snd h2).symm⟩

lemma parse_some_conds {s n p : String} (h : parse_repo_path s = some (n, p)) :
    n ≠ "" ∧ (n.toList.contains '/') = true := by
  rw [parse_repo_path_eq] at h
  by_cases hc : leftOfColon s = "" ∨ ¬ (leftOfColon s).toList.contains '/'
  · rw [if_pos hc] at h
    exact absurd h (by simp)
  · rw [if_neg hc] at h
    have h2 := Option.some.inj h
    have hn : n = leftOfColon s := (congrArg Prod.fst h2).symm
    push_neg at hc
    exact ⟨hn ▸ hc.1, by rw [hn]; exact eq_true_of_ne_false (by simpa using hc.2)⟩

lemma parse_some_no_colon {s n p : String} (h : parse_repo_path s = some (n, p)) :
    ':' ∉ n.toList := by
  have hn := (parse_some_fields h).1
  subst hn
  intro hmem
  have := List.mem_takeWhile_imp hmem
  simp at this

lemma parse_self {n : String} (hne : n ≠ "") (hslash : (n.toList.contains '/') = true)
    (hcol : ':' ∉ n.toList) :
    parse_repo_path n = some (n, "") := by
  have h1 : leftOfColon n = n := by
    show (⟨n.toList.takeWhile (fun c => c ≠ ':')⟩ : String) = n
    rw [String.ext_iff]
    show n.toList.takeWhile (fun c => c ≠ ':') = n.toList
    rw [List.takeWhile_eq_self_iff]
    intro x hx
    simp only [ne_eq, decide_eq_true_eq]
    exact fun h => hcol (h ▸ hx)
  have h2 : rightOfColon n = "" := by
    show (⟨(n.toList.dropWhile (fun c => c ≠ ':')).tail⟩ : String) = ""
    rw [String.ext_iff]
    show (n.toList.dropWhile (fun c => c ≠ ':')).tail = []
    have : n.toList.dropWhile (fun c => c ≠ ':') = [] := by
      rw [List.dropWhile_eq_nil_iff]
      intro x hx
      simp only [ne_eq, decide_eq_true_eq]
      exact fun h => hcol (h ▸ hx)
    rw [this]
    rfl
  rw [parse_repo_path_eq, h1, h2, if_neg]
  push_neg
  exact ⟨hne, by simpa using hslash⟩

/-- C2: for every input string, the path parser splits once on the first
colon, returning the part before it as repository identifier and the
(possibly empty) part after it as in-repo path, and fails (both components
unset) exactly when the part before the colon is empty or contains no
slash; in particular "a/b:c/d" parses to ("a/b", "c/d"), "a/b" parses to
("a/b", ""), and "" fails to parse. -/
theorem parse_repo_path_spec :
    (∀ s : String,
      parse_repo_path s =
        if leftOfColon s = "" ∨ ¬ (leftOfColon s).toList.contains '/' then none
        else some (leftOfColon s, rightOfColon s)) ∧
    parse_repo_path "a/b:c/d" = some ("a/b", "c/d") ∧
    parse_repo_path "a/b" = some ("a/b", "") ∧
    parse_repo_path "" = none :=
  ⟨parse_repo_path_eq, by decide, by decide, rfl⟩

/-! ## Direction heuristic of copy -/

lemma uploadLoop_direction (rmt : Remote) (repoPath : String)
    (read : String → List Nat) (l : List String) (acc : List Call) :
    (uploadLoop rmt repoPath read l acc).direction = some .upload := by
  induction l generalizing acc with
  | nil => rfl
  | cons rel rest ih =>
    simp only [uploadLoop]
    cases (uploadOne rmt (path_join repoPath rel) (read rel)).2 <;> simp [ih]

lemma copyUpload_direction (fs : LocalFS) (rmt : Remote) (src dst : String) :
    (copyUpload fs rmt src dst).direction = some .upload := by
  cases hp : parse_repo_path dst with
  | none => simp [copyUpload, hp]
  | some pr =>
    obtain ⟨repoName, repoPath⟩ := pr
    cases hr : rmt.getRepo repoName with
    | err s => simp [copyUpload, hp, hr]
    | ok u =>
      simp only [copyUpload, hp, hr]
      by_cases h1 : fs.isFile src = false ∧ fs.isDir src = false
      · simp [h1]
      · rw [if_neg h1]
        by_cases h2 : fs.isDir src = true
        · simp [h2, uploadLoop_direction]
        · rw [if_neg h2]
          by_cases h3 : fs.isFile src = true
          · rw [if_pos h3]
            cases (uploadOne rmt (targetName repoPath src) (fs.read src)).2 <;> rfl
          · rw [if_neg h3]

lemma copyDownload_direction (rmt : Remote) (src dst : String) :
    (copyDownload rmt src dst).direction = some .download := by
  cases hp : parse_repo_path src with
  | none => simp [copyDownload, hp]
  | some pr =>
    obtain ⟨repoName, repoPath⟩ := pr
    cases hr : rmt.getRepo repoName with
    | err s => simp [copyDownload, hp, hr]
    | ok u =>
      cases hc : rmt.getContents repoPath with
      | err s => simp [copyDownload, hp, hr, hc]
      | ok c =>
        cases c with
        | file e =>
          cases hb : b64decode e.content <;> simp [copyDownload, hp, hr, hc, hb]
        | dir entries =>
          cases hd : downloadLoop dst entries [] <;> simp [copyDownload, hp, hr, hc, hd]

lemma py_startswith_dot (s : String) :
    py_startswith s "." = true ↔ s.toList.head? = some '.' := by
  unfold py_startswith
  cases h : s.toList with
  | nil => simp [h]
  | cons c cs =>
    show (List.take (".".toList.length) (c :: cs) == ['.']) = true ↔ _
    simp [h]

lemma py_contains_iff (s : String) (c : Char) :
    py_contains s c = true ↔ c ∈ s.toList := by
  simp [py_contains]

/-- C4: a copy invocation is dispatched to the upload direction exactly when
the source has no colon or its first character is a dot, and to the
download direction otherwise. -/
theorem copy_direction_spec (tok : String) (fs : LocalFS) (rmt : Remote)
    (src dst : String) (hs : src ≠ "") (hd : dst ≠ "") :
    ((copy (some tok) fs rmt src dst).direction = some .upload ↔
      (src.toList.head? = some '.' ∨ ':' ∉ src.toList)) ∧
    ((copy (some tok) fs rmt src dst).direction = some .download ↔
      ¬ (src.toList.head? = some '.' ∨ ':' ∉ src.toList)) := by
  have hdisp : copy (some tok) fs rmt src dst =
      if py_startswith src "." || ! py_contains src ':' then copyUpload fs rmt src dst
      else copyDownload rmt src dst := by
    unfold copy
    rw [if_neg hs, if_neg hd]
  by_cases hcond : src.toList.head? = some '.' ∨ ':' ∉ src.toList
  · have hb : (py_startswith src "." || ! py_contains src ':') = true := by
      rcases hcond with h | h
      · rw [Bool.or_eq_true, py_startswith_dot]
        exact Or.inl h
      · rw [Bool.or_eq_true]
        refine Or.inr ?_
        rw [Bool.not_eq_true']
        rw [← Bool.not_eq_true]
        intro hcon
        exact h ((py_contains_iff src ':').mp hcon)
    rw [hdisp, if_pos hb]
    refine ⟨?_, ?_⟩
    · rw [copyUpload_direction]
      exact iff_of_true rfl hcond
    · rw [copyUpload_direction]
      exact iff_of_false (by simp) (fun h => h hcond)
  · have hb : (py_startswith src "." || ! py_contains src ':') = false := by
      push_neg at hcond
      rw [Bool.or_eq_false_iff]
      constructor
      · rw [← Bool.not_eq_true, py_startswith_dot]
        exact hcond.1
      · rw [Bool.not_eq_false', py_contains_iff]
        exact hcond.2
    rw [hdisp, if_neg (by rw [hb]; exact Bool.false_ne_true)]
    refine ⟨?_, ?_⟩
    · rw [copyDownload_direction]
      exact iff_of_false (by simp) hcond
    · rw [copyDownload_direction]
      exact iff_of_true rfl hcond

/-- Witness for C4 at concrete inputs: "./x" is treated as upload,
"u/r:f" as download. -/
theorem copy_direction_spec_witness :
    (("./x" : String) ≠ "" ∧ ("u/r:f" : String) ≠ "") ∧
    (((copy (some "t") ⟨fun _ => true, fun _ => false, fun _ => [], fun _ => []⟩
        ⟨fun _ => .ok (), fun _ => .err 404, fun _ _ _ => .ok (), fun _ _ => .ok (),
         fun _ _ => .ok (), .ok []⟩ "./x" "u/r").direction = some .upload ↔
      (("./x" : String).toList.head? = some '.' ∨ ':' ∉ ("./x" : String).toList)) ∧
     ((copy (some "t") ⟨fun _ => true, fun _ => false, fun _ => [], fun _ => []⟩
        ⟨fun _ => .ok (), fun _ => .err 404, fun _ _ _ => .ok (), fun _ _ => .ok (),
         fun _ _ => .ok (), .ok []⟩ "./x" "u/r").direction = some .download ↔
      ¬ (("./x" : String).toList.head? = some '.' ∨ ':' ∉ ("./x" : String).toList))) :=
  ⟨⟨by decide, by decide⟩,
    copy_direction_spec "t" ⟨fun _ => true, fun _ => false, fun _ => [], fun _ => []⟩
      ⟨fun _ => .ok (), fun _ => .err 404, fun _ _ _ => .ok (), fun _ _ => .ok (),
       fun _ _ => .ok (), .ok []⟩ "./x" "u/r" (by decide) (by decide)⟩

/-! ## Authentication gate -/

/-- C5: with the token file absent, every command other than login fails
with the authentication-required error and exits 1 without issuing any
remote API call.  The non-emptiness hypotheses say that argparse supplied
the required positional arguments. -/
theorem missing_token_auth_required (fs : LocalFS) (rmt : Remote)
    (file repoArg src dst fileArg lsArg : String)
    (h1 : file ≠ "") (h2 : repoArg ≠ "") (h3 : src ≠ "") (h4 : dst ≠ "")
    (h5 : fileArg ≠ "") :
    send_file none fs rmt file repoArg =
      { outcome := .exited 1, error := some .authRequired } ∧
    copy none fs rmt src dst =
      { outcome := .exited 1, error := some .authRequired } ∧
    remove_file none rmt fileArg =
      { outcome := .exited 1, error := some .authRequired } ∧
    list_files none rmt lsArg =
      { outcome := .exited 1, error := some .authRequired } := by
  refine ⟨?_, ?_, ?_, ?_⟩
  · simp [send_file, h1, h2]
  · simp [copy, h3, h4]
  · simp [remove_file, h5]
  · simp [list_files]

/-- Witness for C5 at concrete arguments. -/
theorem missing_token_auth_required_witness :
    send_file none ⟨fun _ => true, fun _ => false, fun _ => [], fun _ => []⟩
      ⟨fun _ => .ok (), fun _ => .err 404, fun _ _ _ => .ok (), fun _ _ => .ok (),
       fun _ _ => .ok (), .ok []⟩ "f.txt" "u/r" =
      { outcome := .exited 1, error := some .authRequired } ∧
    copy none ⟨fun _ => true, fun _ => false, fun _ => [], fun _ => []⟩
      ⟨fun _ => .ok (), fun _ => .err 404, fun _ _ _ => .ok (), fun _ _ => .ok (),
       fun _ _ => .ok (), .ok []⟩ "./a" "u/r:b" =
      { outcome := .exited 1, error := some .authRequired } ∧
    remove_file none
      ⟨fun _ => .ok (), fun _ => .err 404, fun _ _ _ => .ok (), fun _ _ => .ok (),
       fun _ _ => .ok (), .ok []⟩ "u/r:f" =
      { outcome := .exited 1, error := some .authRequired } ∧
    list_files none
      ⟨fun _ => .ok (), fun _ => .err 404, fun _ _ _ => .ok (), fun _ _ => .ok (),
       fun _ _ => .ok (), .ok []⟩ ":." =
      { outcome := .exited 1, error := some .authRequired } :=
  missing_token_auth_required
    ⟨fun _ => true, fun _ => false, fun _ => [], fun _ => []⟩
    ⟨fun _ => .ok (), fun _ => .err 404, fun _ _ _ => .ok (), fun _ _ => .ok (),
     fun _ _ => .ok (), .ok []⟩
    "f.txt" "u/r" "./a" "u/r:b" "u/r:f" ":."
    (by decide) (by decide) (by decide) (by decide) (by decide)

/-! ## login -/

/-- C9: cancelling the token prompt exits 0 and writes nothing; the token is
persisted only when the single verification call succeeds, so on
verification failure nothing is written and the process exits 1. -/
theorem login_spec (verify : String → ApiResult String) (raw : String) :
    ((login none verify).outcome = .exited 0 ∧
     (login none verify).tokenWrite = none) ∧
    ((login (some raw) verify).tokenWrite ≠ none →
      ∃ u, verify raw.trim = .ok u ∧
        (login (some raw) verify).tokenWrite = some raw.trim) ∧
    (∀ s, verify raw.trim = .err s →
      (login (some raw) verify).tokenWrite = none ∧
      (login (some raw) verify).outcome = .exited 1) := by
  refine ⟨⟨rfl, rfl⟩, ?_, ?_⟩
  · intro hw
    by_cases ht : raw.trim = ""
    · exact absurd (by simp [login, ht]) hw
    · cases hv : verify raw.trim with
      | ok u => exact ⟨u, rfl, by simp [login, ht, hv]⟩
      | err s => exact absurd (by simp [login, ht, hv]) hw
  · intro s hv
    by_cases ht : raw.trim = ""
    · simp [login, ht]
    · simp [login, ht, hv]

/-- Witness for C9: with a verifier that rejects everything, a prompted
token " tok " is not persisted and the process exits 1; an interrupt exits
0 with no write. -/
theorem login_spec_witness :
    (((login none (fun _ => .err 401)).outcome = .exited 0 ∧
      (login none (fun _ => .err 401)).tokenWrite = none) ∧
     ((login (some " tok ") (fun _ => .err 401)).tokenWrite ≠ none →
       ∃ u, (fun _ => (.err 401 : ApiResult String)) (" tok ".trim) = .ok u ∧
         (login (some " tok ") (fun _ => .err 401)).tokenWrite = some " tok ".trim) ∧
     (∀ s, (fun _ => (.err 401 : ApiResult String)) (" tok ".trim) = .err s →
       (login (some " tok ") (fun _ => .err 401)).tokenWrite = none ∧
       (login (some " tok ") (fun _ => .err 401)).outcome = .exited 1)) :=
  login_spec (fun _ => .err 401) " tok "

/-! ## Empty in-repo path falls back to the base name -/

/-- C10: a repository reference whose in-repo path part is empty (such as
"user/repo:") behaves exactly like the bare reference without a colon, and
the upload target name falls back to the local file's base name. -/
theorem empty_path_basename_fallback (tok : String) (fs : LocalFS) (rmt : Remote)
    (file src repoArg repoName : String)
    (hparse : parse_repo_path repoArg = some (repoName, ""))
    (hfne : file ≠ "") (hsne : src ≠ "")
    (hupl : (py_startswith src "." || ! py_contains src ':') = true)
    (hfile : fs.isFile file = true)
    (hsrcfile : fs.isFile src = true) (hsrcdir : fs.isDir src = false)
    (hrepo : rmt.getRepo repoName = .ok ()) :
    send_file (some tok) fs rmt file repoArg =
      send_file (some tok) fs rmt file repoName ∧
    copy (some tok) fs rmt src repoArg = copy (some tok) fs rmt src repoName ∧
    (send_file (some tok) fs rmt file repoArg).calls =
      .getRepo repoName :: (uploadOne rmt (basename file) (fs.read file)).1 ∧
    (copy (some tok) fs rmt src repoArg).calls =
      .getRepo repoName :: (uploadOne rmt (basename src) (fs.read src)).1 := by
  have hargne : repoArg ≠ "" := by
    intro h
    rw [h] at hparse
    exact absurd hparse (by simp [parse_repo_path])
  have hconds := parse_some_conds hparse
  have hnne : repoName ≠ "" := hconds.1
  have hself : parse_repo_path repoName = some (repoName, "") :=
    parse_self hconds.1 hconds.2 (parse_some_no_colon hparse)
  have hsend : send_file (some tok) fs rmt file repoArg =
      send_file (some tok) fs rmt file repoName := by
    unfold send_file
    rw [if_neg hfne, if_neg hfne, if_neg hargne, if_neg hnne, hparse, hself]
  have hcopy : copy (some tok) fs rmt src repoArg = copy (some tok) fs rmt src repoName := by
    unfold copy
    rw [if_neg hsne, if_neg hsne, if_neg hargne, if_neg hnne, if_pos hupl, if_pos hupl]
    unfold copyUpload
    rw [hparse, hself]
  refine ⟨hsend, hcopy, ?_, ?_⟩
  · unfold send_file
    rw [if_neg hfne, if_neg hargne, hparse]
    simp only [hfile, hrepo, targetName]
    cases hu : (uploadOne rmt (basename file) (fs.read file)).2 <;> simp [hu]
  · unfold copy
    rw [if_neg hsne, if_neg hargne, if_pos hupl]
    unfold copyUpload
    simp only [hparse, hrepo, hsrcfile, hsrcdir, targetName]
    cases hu : (uploadOne rmt (basename src) (fs.read src)).2 <;> simp [hu]

/-- Witness for C10: "u/r:" behaves like "u/r" for both send and
single-file copy upload, and the upload targets the base name of the
local file. -/
theorem empty_path_basename_fallback_witness :
    send_file (some "t") fsAll rmt404 "a/f.txt" "u/r:" =
      send_file (some "t") fsAll rmt404 "a/f.txt" "u/r" ∧
    copy (some "t") fsAll rmt404 "./g.txt" "u/r:" =
      copy (some "t") fsAll rmt404 "./g.txt" "u/r" ∧
    (send_file (some "t") fsAll rmt404 "a/f.txt" "u/r:").calls =
      .getRepo "u/r" :: (uploadOne rmt404 (basename "a/f.txt") (fsAll.read "a/f.txt")).1 ∧
    (copy (some "t") fsAll rmt404 "./g.txt" "u/r:").calls =
      .getRepo "u/r" :: (uploadOne rmt404 (basename "./g.txt") (fsAll.read "./g.txt")).1 :=
  empty_path_basename_fallback "t" fsAll rmt404 "a/f.txt" "./g.txt" "u/r:" "u/r"
    (by decide) (by decide) (by decide) (by decide) (by decide) (by decide) (by decide) rfl

/-! ## rm -/

/-- C8: rm requires a non-empty in-repo path; it fetches the entry for its
sha; a path resolving to a directory listing aborts with the invalid-target
error and exit 1 without any delete call; a delete is issued only for a
path resolving to a single file, and then with that entry's sha. -/
theorem remove_file_spec (tok : String) (rmt : Remote)
    (fileArg repoName repoPath : String) (harg : fileArg ≠ "")
    (hparse : parse_repo_path fileArg = some (repoName, repoPath)) :
    (repoPath = "" → remove_file (some tok) rmt fileArg =
      { outcome := .exited 1, error := some .pathMissing }) ∧
    (∀ es, repoPath ≠ "" → rmt.getRepo repoName = .ok () →
      rmt.getContents repoPath = .ok (.dir es) →
      (remove_file (some tok) rmt fileArg).outcome = .exited 1 ∧
      (remove_file (some tok) rmt fileArg).error = some .cannotRemoveDir ∧
      ∀ p s, Call.deleteFile p s ∉ (remove_file (some tok) rmt fileArg).calls) ∧
    (∀ e, repoPath ≠ "" → rmt.getRepo repoName = .ok () →
      rmt.getContents repoPath = .ok (.file e) →
      Call.deleteFile repoPath e.sha ∈ (remove_file (some tok) rmt fileArg).calls) ∧
    (∀ p s, Call.deleteFile p s ∈ (remove_file (some tok) rmt fileArg).calls →
      repoPath ≠ "" ∧
      ∃ e, rmt.getContents repoPath = .ok (.file e) ∧ p = repoPath ∧ s = e.sha) := by
  refine ⟨?_, ?_, ?_, ?_⟩
  · intro hp
    subst hp
    unfold remove_file
    rw [if_neg harg]
    simp only [hparse]
    rfl
  · intro es hp hr hc
    unfold remove_file
    rw [if_neg harg]
    simp only [hparse]
    rw [if_neg hp]
    simp only [hr, hc]
    refine ⟨trivial, trivial, ?_⟩
    intro p s
    simp
  · intro e hp hr hc
    unfold remove_file
    rw [if_neg harg]
    simp only [hparse]
    rw [if_neg hp]
    simp only [hr, hc]
    cases hd : rmt.deleteFile repoPath e.sha <;> simp [hd]
  · intro p s hmem
    unfold remove_file at hmem
    rw [if_neg harg] at hmem
    simp only [hparse] at hmem
    by_cases hp : repoPath = ""
    · rw [if_pos hp] at hmem
      simp at hmem
    · rw [if_neg hp] at hmem
      refine ⟨hp, ?_⟩
      cases hr : rmt.getRepo repoName with
      | err s2 =>
        simp only [hr] at hmem
        simp at hmem
      | ok u =>
        simp only [hr] at hmem
        cases hc : rmt.getContents repoPath with
        | err s2 =>
          simp only [hc] at hmem
          simp at hmem
        | ok c =>
          simp only [hc] at hmem
          cases c with
          | dir es =>
            simp at hmem
          | file e =>
            cases hd : rmt.deleteFile repoPath e.sha <;>
              · simp only [hd] at hmem
                simp at hmem
                exact ⟨e, rfl, hmem.1, hmem.2⟩

/-! ## Behaviour of the shared upload step -/

lemma parse_some_ne {s : String} {x : String × String}
    (h : parse_repo_path s = some x) : s ≠ "" := by
  intro he
  rw [he] at h
  exact absurd h (by simp [parse_repo_path])

lemma uploadOne_update_mem {rmt : Remote} {path : String} {content : List Nat}
    {e : Entry} (hc : rmt.getContents path = .ok (.file e)) :
    Call.updateFile path content e.sha ∈ (uploadOne rmt path content).1 := by
  unfold uploadOne
  simp only [hc]
  cases hu : rmt.updateFile path content e.sha with
  | ok u => simp
  | err s =>
    by_cases h4 : s = 404
    · subst h4
      simp only [if_pos rfl]
      cases rmt.createFile path content <;> simp
    · simp [h4]

lemma uploadOne_create_iff (rmt : Remote) (path : String) (content : List Nat) :
    Call.createFile path content ∈ (uploadOne rmt path content).1 ↔
      (rmt.getContents path = .err 404 ∨
       ∃ e, rmt.getContents path = .ok (.file e) ∧
         rmt.updateFile path content e.sha = .err 404) := by
  unfold uploadOne
  cases hc : rmt.getContents path with
  | ok c =>
    cases c with
    | file e =>
      cases hu : rmt.updateFile path content e.sha with
      | ok u => simp [hc, hu]
      | err s =>
        by_cases h4 : s = 404
        · subst h4
          simp only [if_pos rfl]
          cases hcr : rmt.createFile path content <;> simp [hc, hu]
        · simp only [if_neg h4]
          simp [hc, hu, h4]
    | dir es => simp [hc]
  | err s =>
    by_cases h4 : s = 404
    · subst h4
      simp only [if_pos rfl]
      cases hcr : rmt.createFile path content <;> simp [hc]
    · simp only [if_neg h4]
      simp [hc, h4]

lemma uploadOne_read_fail {rmt : Remote} {path : String} {content : List Nat}
    {s : Nat} (h4 : s ≠ 404) (hc : rmt.getContents path = .err s) :
    (uploadOne rmt path content).2 = .failedOther s := by
  unfold uploadOne
  simp [hc, h4]

lemma uploadOne_update_fail {rmt : Remote} {path : String} {content : List Nat}
    {e : Entry} {s : Nat} (hc : rmt.getContents path = .ok (.file e))
    (h4 : s ≠ 404) (hu : rmt.updateFile path content e.sha = .err s) :
    (uploadOne rmt path content).2 = .failedOther s := by
  unfold uploadOne
  simp [hc, hu, h4]

lemma send_file_run (tok : String) (fs : LocalFS) (rmt : Remote)
    (file repoArg repoName repoPath : String) (hfne : file ≠ "")
    (hparse : parse_repo_path repoArg = some (repoName, repoPath))
    (hfile : fs.isFile file = true) (hrepo : rmt.getRepo repoName = .ok ()) :
    (send_file (some tok) fs rmt file repoArg).calls =
      .getRepo repoName ::
        (uploadOne rmt (targetName repoPath file) (fs.read file)).1 ∧
    (send_file (some tok) fs rmt file repoArg).outcome =
      (if (uploadOne rmt (targetName repoPath file)
          (fs.read file)).2.isSuccess then .completed else .exited 1) := by
  unfold send_file
  rw [if_neg hfne, if_neg (parse_some_ne hparse)]
  simp only [hparse, hfile, hrepo]
  cases hu : (uploadOne rmt (targetName repoPath file) (fs.read file)).2 <;>
    simp [hu, UpResult.isSuccess]

lemma copy_file_run (tok : String) (fs : LocalFS) (rmt : Remote)
    (src dst repoName repoPath : String) (hsne : src ≠ "")
    (hupl : (py_startswith src "." || ! py_contains src ':') = true)
    (hparse : parse_repo_path dst = some (repoName, repoPath))
    (hsrcfile : fs.isFile src = true) (hsrcdir : fs.isDir src = false)
    (hrepo : rmt.getRepo repoName = .ok ()) :
    (copy (some tok) fs rmt src dst).calls =
      .getRepo repoName ::
        (uploadOne rmt (targetName repoPath src) (fs.read src)).1 ∧
    (copy (some tok) fs rmt src dst).outcome =
      (if (uploadOne rmt (targetName repoPath src)
          (fs.read src)).2.isSuccess then .completed else .exited 1) := by
  unfold copy
  rw [if_neg hsne, if_neg (parse_some_ne hparse), if_pos hupl]
  unfold copyUpload
  simp only [hparse, hrepo, hsrcfile, hsrcdir]
  cases hu : (uploadOne rmt (targetName repoPath src) (fs.read src)).2 <;>
    simp [hu, UpResult.isSuccess]

lemma upload_block_spec (rmt : Remote) (name repoName : String)
    (content : List Nat) (r : Run)
    (hcalls : r.calls = .getRepo repoName :: (uploadOne rmt name content).1)
    (hout : r.outcome =
      (if (uploadOne rmt name content).2.isSuccess then .completed else .exited 1)) :
    (∀ e, rmt.getContents name = .ok (.file e) →
      Call.updateFile name content e.sha ∈ r.calls) ∧
    (Call.createFile name content ∈ r.calls ↔
      (rmt.getContents name = .err 404 ∨
       ∃ e, rmt.getContents name = .ok (.file e) ∧
         rmt.updateFile name content e.sha = .err 404)) ∧
    (∀ s, s ≠ 404 → rmt.getContents name = .err s →
      r.outcome = .exited 1 ∧ Call.createFile name content ∉ r.calls) ∧
    (∀ e s, rmt.getContents name = .ok (.file e) → s ≠ 404 →
      rmt.updateFile name content e.sha = .err s →
      r.outcome = .exited 1 ∧ Call.createFile name content ∉ r.calls) := by
  refine ⟨?_, ?_, ?_, ?_⟩
  · intro e hc
    rw [hcalls]
    exact List.mem_cons_of_mem _ (uploadOne_update_mem hc)
  · rw [hcalls]
    rw [List.mem_cons]
    rw [uploadOne_create_iff]
    simp
  · intro s h4 hc
    constructor
    · rw [hout, uploadOne_read_fail h4 hc]
      rfl
    · rw [hcalls, List.mem_cons]
      rw [uploadOne_create_iff]
      simp [hc, h4]
  · intro e s hc h4 hu
    constructor
    · rw [hout, uploadOne_update_fail hc h4 hu]
      rfl
    · rw [hcalls, List.mem_cons, uploadOne_create_iff]
      rintro (h | h | ⟨e2, he2, hu2⟩)
      · exact absurd h (by simp)
      · rw [hc] at h
        exact absurd h (by simp)
      · rw [hc] at he2
        have h2 : e = e2 := Contents.file.inj (ApiResult.ok.inj he2)
        rw [← h2, hu] at hu2
        exact h4 (ApiResult.err.inj hu2)

/-- Witness for C8: on a remote where the path is a file with sha "sha1",
rm fetches and deletes with that sha. -/
theorem remove_file_spec_witness :
    Call.deleteFile "f" "sha1" ∈ (remove_file (some "t") rmtFile "u/r:f").calls :=
  (remove_file_spec "t" rmtFile "u/r:f" "u/r" "f" (by decide) (by decide)).2.2.1
    ⟨"f.txt", "file", "sha1", "aGk="⟩ (by decide) rfl rfl

/-! ## Update-or-create fallback (C1) -/

/-- Counterexample to C1 as stated: on a remote where the get-contents read
succeeds (returning sha "sha1") but the update call fails with HTTP 404,
send_file nevertheless creates the file and completes successfully — the
404 fallback catches the update call too, so "creates if and only if the
read fails with 404" is false, as is "any other remote failure exits 1
without creating". -/
theorem send_file_creates_despite_read_ok :
    rmtUpd404.getContents "f" = .ok (.file ⟨"f.txt", "file", "sha1", "aGk="⟩) ∧
    rmtUpd404.updateFile "f" [104] "sha1" = .err 404 ∧
    Call.createFile "f" [104] ∈
      (send_file (some "t") fsAll rmtUpd404 "local.txt" "u/r:f").calls ∧
    (send_file (some "t") fsAll rmtUpd404 "local.txt" "u/r:f").outcome =
      .completed := by
  refine ⟨rfl, rfl, ?_, rfl⟩
  decide

/-- C1 (amended): for send and for the single-file upload branch of copy,
with a valid repository reference and an existing local file, the handler
attempts an update with the sha obtained from the get-contents read; it
creates the file exactly when the get-contents read fails with HTTP 404 or
the update call itself fails with HTTP 404 (the fallback catches both
calls of the shared block); any other remote read or update failure exits
with status 1 without creating the file. -/
theorem upload_update_create_fallback (tok : String) (fs : LocalFS)
    (rmt : Remote) (file repoArg repoName repoPath src dst dName dPath : String)
    (hfne : file ≠ "")
    (hparse : parse_repo_path repoArg = some (repoName, repoPath))
    (hfile : fs.isFile file = true)
    (hrepo : rmt.getRepo repoName = .ok ())
    (hsne : src ≠ "")
    (hupl : (py_startswith src "." || ! py_contains src ':') = true)
    (hdparse : parse_repo_path dst = some (dName, dPath))
    (hsrcfile : fs.isFile src = true) (hsrcdir : fs.isDir src = false)
    (hdrepo : rmt.getRepo dName = .ok ()) :
    ((∀ e, rmt.getContents (targetName repoPath file) = .ok (.file e) →
        Call.updateFile (targetName repoPath file) (fs.read file) e.sha ∈
          (send_file (some tok) fs rmt file repoArg).calls) ∧
     (Call.createFile (targetName repoPath file) (fs.read file) ∈
        (send_file (some tok) fs rmt file repoArg).calls ↔
      (rmt.getContents (targetName repoPath file) = .err 404 ∨
       ∃ e, rmt.getContents (targetName repoPath file) = .ok (.file e) ∧
         rmt.updateFile (targetName repoPath file) (fs.read file) e.sha = .err 404)) ∧
     (∀ s, s ≠ 404 → rmt.getContents (targetName repoPath file) = .err s →
        (send_file (some tok) fs rmt file repoArg).outcome = .exited 1 ∧
        Call.createFile (targetName repoPath file) (fs.read file) ∉
          (send_file (some tok) fs rmt file repoArg).calls) ∧
     (∀ e s, rmt.getContents (targetName repoPath file) = .ok (.file e) →
        s ≠ 404 →
        rmt.updateFile (targetName repoPath file) (fs.read file) e.sha = .err s →
        (send_file (some tok) fs rmt file repoArg).outcome = .exited 1 ∧
        Call.createFile (targetName repoPath file) (fs.read file) ∉
          (send_file (some tok) fs rmt file repoArg).calls)) ∧
    ((∀ e, rmt.getContents (targetName dPath src) = .ok (.file e) →
        Call.updateFile (targetName dPath src) (fs.read src) e.sha ∈
          (copy (some tok) fs rmt src dst).calls) ∧
     (Call.createFile (targetName dPath src) (fs.read src) ∈
        (copy (some tok) fs rmt src dst).calls ↔
      (rmt.getContents (targetName dPath src) = .err 404 ∨
       ∃ e, rmt.getContents (targetName dPath src) = .ok (.file e) ∧
         rmt.updateFile (targetName dPath src) (fs.read src) e.sha = .err 404)) ∧
     (∀ s, s ≠ 404 → rmt.getContents (targetName dPath src) = .err s →
        (copy (some tok) fs rmt src dst).outcome = .exited 1 ∧
        Call.createFile (targetName dPath src) (fs.read src) ∉
          (copy (some tok) fs rmt src dst).calls) ∧
     (∀ e s, rmt.getContents (targetName dPath src) = .ok (.file e) → s ≠ 404 →
        rmt.updateFile (targetName dPath src) (fs.read src) e.sha = .err s →
        (copy (some tok) fs rmt src dst).outcome = .exited 1 ∧
        Call.createFile (targetName dPath src) (fs.read src) ∉
          (copy (some tok) fs rmt src dst).calls)) := by
  constructor
  · obtain ⟨hc, ho⟩ :=
      send_file_run tok fs rmt file repoArg repoName repoPath hfne hparse hfile hrepo
    exact upload_block_spec rmt (targetName repoPath file) repoName (fs.read file)
      (send_file (some tok) fs rmt file repoArg) hc ho
  · obtain ⟨hc, ho⟩ :=
      copy_file_run tok fs rmt src dst dName dPath hsne hupl hdparse
        hsrcfile hsrcdir hdrepo
    exact upload_block_spec rmt (targetName dPath src) dName (fs.read src)
      (copy (some tok) fs rmt src dst) hc ho

/-- Witness for C1 (amended) at concrete inputs: on a remote where no path
exists yet (get-contents answers 404) the create branch is taken for both
send and single-file copy upload. -/
theorem upload_update_create_fallback_witness :
    Call.createFile "f" [104] ∈
      (send_file (some "t") fsAll rmt404 "local.txt" "u/r:f").calls ∧
    Call.createFile "g" [104] ∈
      (copy (some "t") fsAll rmt404 "./x.txt" "u/r:g").calls := by
  have h := upload_update_create_fallback "t" fsAll rmt404 "local.txt" "u/r:f"
    "u/r" "f" "./x.txt" "u/r:g" "u/r" "g"
    (by decide) (by decide) rfl rfl (by decide) (by decide) (by decide) rfl rfl rfl
  exact ⟨(h.1.2.1).mpr (Or.inl rfl), (h.2.2.1).mpr (Or.inl rfl)⟩

/-! ## Single-file download (C3) -/

/-- Counterexample to C3 as stated: downloading "u/r:f.txt" to the local
destination "out" writes the decoded bytes to "out/f.txt" — the
destination joined with the remote entry's name — not to the destination
path "out" given on the command line. -/
theorem copy_download_writes_joined_not_dst :
    (copy (some "t") fsAll rmtFile "u/r:f.txt" "out").writes =
      [("out/f.txt", [104, 105])] ∧
    ("out/f.txt" : String) ≠ "out" := by
  refine ⟨by decide, by decide⟩

/-- C3 (amended): for a download whose remote path resolves to a single
file entry, copy base64-decodes the entry's content and writes the bytes
to the POSIX join of the command-line destination with the entry's name,
creating that joined path's parent directory. -/
theorem copy_download_file_spec (tok : String) (fs : LocalFS) (rmt : Remote)
    (src dst repoName repoPath : String) (e : Entry) (bytes : List Nat)
    (hdne : dst ≠ "")
    (hnup : (py_startswith src "." || ! py_contains src ':') = false)
    (hparse : parse_repo_path src = some (repoName, repoPath))
    (hrepo : rmt.getRepo repoName = .ok ())
    (hc : rmt.getContents repoPath = .ok (.file e))
    (hb : b64decode e.content = some bytes) :
    (copy (some tok) fs rmt src dst).writes = [(path_join dst e.name, bytes)] ∧
    (copy (some tok) fs rmt src dst).mkdirs = [dirname (path_join dst e.name)] ∧
    (copy (some tok) fs rmt src dst).outcome = .completed := by
  unfold copy
  rw [if_neg (parse_some_ne hparse), if_neg hdne]
  simp only [hnup, Bool.false_eq_true, if_false]
  unfold copyDownload
  simp only [hparse, hrepo, hc, hb]
  exact ⟨trivial, trivial, trivial⟩

/-- Witness for C3 (amended) at the concrete download of "u/r:f.txt" (a
file entry named "f.txt" with content "hi") into "out". -/
theorem copy_download_file_spec_witness :
    (copy (some "t") fsAll rmtFile "u/r:f.txt" "out").writes =
      [(path_join "out" "f.txt", [104, 105])] ∧
    (copy (some "t") fsAll rmtFile "u/r:f.txt" "out").mkdirs =
      [dirname (path_join "out" "f.txt")] ∧
    (copy (some "t") fsAll rmtFile "u/r:f.txt" "out").outcome = .completed :=
  copy_download_file_spec "t" fsAll rmtFile "u/r:f.txt" "out" "u/r" "f.txt"
    ⟨"f.txt", "file", "sha1", "aGk="⟩ [104, 105]
    (by decide) (by decide) (by decide) rfl rfl (by decide)

/-! ## Directory upload (C6, C7) -/

lemma uploadOne_contentPaths (rmt : Remote) (path : String) (content : List Nat) :
    contentPaths (uploadOne rmt path content).1 = [path] := by
  cases hc : rmt.getContents path with
  | ok c =>
    cases c with
    | file e =>
      cases hu : rmt.updateFile path content e.sha with
      | ok u => simp [uploadOne, hc, hu, contentPaths, callContentPath]
      | err s =>
        by_cases h4 : s = 404
        · subst h4
          cases hcr : rmt.createFile path content <;>
            simp [uploadOne, hc, hu, hcr, contentPaths, callContentPath]
        · simp [uploadOne, hc, hu, h4, contentPaths, callContentPath]
    | dir es => simp [uploadOne, hc, contentPaths, callContentPath]
  | err s =>
    by_cases h4 : s = 404
    · subst h4
      cases hcr : rmt.createFile path content <;>
        simp [uploadOne, hc, hcr, contentPaths, callContentPath]
    · simp [uploadOne, hc, h4, contentPaths, callContentPath]

lemma uploadOne_no_delete (rmt : Remote) (path : String) (content : List Nat)
    (p s : String) : Call.deleteFile p s ∉ (uploadOne rmt path content).1 := by
  cases hc : rmt.getContents path with
  | ok c =>
    cases c with
    | file e =>
      cases hu : rmt.updateFile path content e.sha with
      | ok u => simp [uploadOne, hc, hu]
      | err s2 =>
        by_cases h4 : s2 = 404
        · subst h4
          cases hcr : rmt.createFile path content <;> simp [uploadOne, hc, hu, hcr]
        · simp [uploadOne, hc, hu, h4]
    | dir es => simp [uploadOne, hc]
  | err s2 =>
    by_cases h4 : s2 = 404
    · subst h4
      cases hcr : rmt.createFile path content <;> simp [uploadOne, hc, hcr]
    · simp [uploadOne, hc, h4]

lemma contentPaths_append (a b : List Call) :
    contentPaths (a ++ b) = contentPaths a ++ contentPaths b :=
  List.filterMap_append a b callContentPath

lemma uploadLoop_all_ok (rmt : Remote) (repoPath : String)
    (read : String → List Nat) (l : List String) :
    ∀ acc : List Call,
      (∀ rel ∈ l,
        (uploadOne rmt (path_join repoPath rel) (read rel)).2.isSuccess = true) →
      uploadLoop rmt repoPath read l acc =
        { calls := acc ++
            (l.map fun rel =>
              (uploadOne rmt (path_join repoPath rel) (read rel)).1).flatten,
          direction := some .upload, outcome := .completed } := by
  induction l with
  | nil =>
    intro acc hok
    simp [uploadLoop]
  | cons rel rest ih =>
    intro acc hok
    have hrel := hok rel (by simp)
    simp only [uploadLoop]
    cases hu : (uploadOne rmt (path_join repoPath rel) (read rel)).2 with
    | updated sha =>
      rw [ih (acc ++ (uploadOne rmt (path_join repoPath rel) (read rel)).1)
        (fun r hr => hok r (by simp [hr]))]
      simp [List.append_assoc]
    | created =>
      rw [ih (acc ++ (uploadOne rmt (path_join repoPath rel) (read rel)).1)
        (fun r hr => hok r (by simp [hr]))]
      simp [List.append_assoc]
    | failedOther s =>
      rw [hu] at hrel
      exact absurd hrel (by simp [UpResult.isSuccess])
    | createFailed s =>
      rw [hu] at hrel
      exact absurd hrel (by simp [UpResult.isSuccess])
    | dirTarget =>
      rw [hu] at hrel
      exact absurd hrel (by simp [UpResult.isSuccess])

lemma uploadLoop_abort (rmt : Remote) (repoPath : String)
    (read : String → List Nat) (bad : String) (post : List String)
    (pre : List String) :
    ∀ acc : List Call,
      (∀ rel ∈ pre,
        (uploadOne rmt (path_join repoPath rel) (read rel)).2.isSuccess = true) →
      (uploadOne rmt (path_join repoPath bad) (read bad)).2.isSuccess = false →
      uploadLoop rmt repoPath read (pre ++ bad :: post) acc =
        { calls := acc ++
            (pre.map fun rel =>
              (uploadOne rmt (path_join repoPath rel) (read rel)).1).flatten ++
            (uploadOne rmt (path_join repoPath bad) (read bad)).1,
          direction := some .upload, outcome := .exited 1,
          error := some .uploadFailed } := by
  induction pre with
  | nil =>
    intro acc hok hbad
    simp only [List.nil_append, uploadLoop]
    cases hu : (uploadOne rmt (path_join repoPath bad) (read bad)).2 with
    | updated sha =>
      rw [hu] at hbad
      exact absurd hbad (by simp [UpResult.isSuccess])
    | created =>
      rw [hu] at hbad
      exact absurd hbad (by simp [UpResult.isSuccess])
    | failedOther s => simp
    | createFailed s => simp
    | dirTarget => simp
  | cons rel rest ih =>
    intro acc hok hbad
    have hrel := hok rel (by simp)
    simp only [List.cons_append, uploadLoop, List.append_eq]
    cases hu : (uploadOne rmt (path_join repoPath rel) (read rel)).2 with
    | updated sha =>
      rw [ih (acc ++ (uploadOne rmt (path_join repoPath rel) (read rel)).1)
        (fun r hr => hok r (by simp [hr])) hbad]
      simp [List.append_assoc]
    | created =>
      rw [ih (acc ++ (uploadOne rmt (path_join repoPath rel) (read rel)).1)
        (fun r hr => hok r (by simp [hr])) hbad]
      simp [List.append_assoc]
    | failedOther s =>
      rw [hu] at hrel
      exact absurd hrel (by simp [UpResult.isSuccess])
    | createFailed s =>
      rw [hu] at hrel
      exact absurd hrel (by simp [UpResult.isSuccess])
    | dirTarget =>
      rw [hu] at hrel
      exact absurd hrel (by simp [UpResult.isSuccess])

lemma contentPaths_blocks (rmt : Remote) (repoPath : String)
    (read : String → List Nat) (l : List String) :
    contentPaths
        ((l.map fun rel =>
          (uploadOne rmt (path_join repoPath rel) (read rel)).1).flatten) =
      l.map (path_join repoPath) := by
  induction l with
  | nil => rfl
  | cons rel rest ih =>
    simp only [List.map_cons, List.flatten_cons]
    rw [contentPaths_append, uploadOne_contentPaths, ih]
    rfl

lemma copy_dir_run (tok : String) (fs : LocalFS) (rmt : Remote)
    (src dst repoName repoPath : String) (hsne : src ≠ "")
    (hupl : (py_startswith src "." || ! py_contains src ':') = true)
    (hparse : parse_repo_path dst = some (repoName, repoPath))
    (hdir : fs.isDir src = true)
    (hrepo : rmt.getRepo repoName = .ok ()) :
    copy (some tok) fs rmt src dst =
      (let r := uploadLoop rmt repoPath (fun rel => fs.read (path_join src rel))
        (fs.rglobFiles src) []
       { r with calls := .getRepo repoName :: r.calls }) := by
  unfold copy
  rw [if_neg hsne, if_neg (parse_some_ne hparse), if_pos hupl]
  unfold copyUpload
  simp only [hparse, hrepo, hdir]
  simp

/-- C6: a directory upload recursively enumerates the files under the local
source directory and uploads each one to the destination path joined with
the file's path relative to the source: when every upload step succeeds,
the attempted targets are exactly `path_join repoPath rel` for the
enumerated relative paths, in order, and the handler completes. -/
theorem copy_dir_upload_paths (tok : String) (fs : LocalFS) (rmt : Remote)
    (src dst repoName repoPath : String) (hsne : src ≠ "")
    (hupl : (py_startswith src "." || ! py_contains src ':') = true)
    (hparse : parse_repo_path dst = some (repoName, repoPath))
    (hdir : fs.isDir src = true)
    (hrepo : rmt.getRepo repoName = .ok ())
    (hok : ∀ rel ∈ fs.rglobFiles src,
      (uploadOne rmt (path_join repoPath rel)
        (fs.read (path_join src rel))).2.isSuccess = true) :
    contentPaths (copy (some tok) fs rmt src dst).calls =
      (fs.rglobFiles src).map (path_join repoPath) ∧
    (copy (some tok) fs rmt src dst).outcome = .completed := by
  have hrun := copy_dir_run tok fs rmt src dst repoName repoPath hsne hupl hparse hdir hrepo
  simp only [uploadLoop_all_ok rmt repoPath
    (fun rel => fs.read (path_join src rel)) (fs.rglobFiles src) [] hok] at hrun
  refine ⟨?_, ?_⟩
  · rw [hrun]
    show contentPaths (.getRepo repoName :: ([] ++ _)) = _
    rw [List.nil_append]
    show List.filterMap callContentPath (.getRepo repoName :: _) = _
    rw [List.filterMap_cons]
    exact contentPaths_blocks rmt repoPath (fun rel => fs.read (path_join src rel))
      (fs.rglobFiles src)
  · rw [hrun]

/-- Witness for C6: the local tree a/b.txt, a/c/d.txt uploaded to
"u/r:dest" targets the remote paths dest/a/b.txt and dest/a/c/d.txt, in
that order. -/
theorem copy_dir_upload_paths_witness :
    contentPaths (copy (some "t") fsTree rmt404 "d" "u/r:dest").calls =
      ["dest/a/b.txt", "dest/a/c/d.txt"] ∧
    (copy (some "t") fsTree rmt404 "d" "u/r:dest").outcome = .completed := by
  have h := copy_dir_upload_paths "t" fsTree rmt404 "d" "u/r:dest" "u/r" "dest"
    (by decide) (by decide) (by decide) (by decide) rfl (by decide)
  exact ⟨h.1.trans (by decide), h.2⟩

/-- C7: when some file of a directory upload fails fatally, the handler
exits 1 at that first failing file: the trace consists of the calls of the
earlier successful uploads followed by the failing file's calls, so every
file uploaded before the failure keeps its upload calls in the trace,
nothing after the failing file is attempted, and no delete (rollback) call
is ever issued. -/
theorem copy_dir_upload_abort_at_failure (tok : String) (fs : LocalFS)
    (rmt : Remote) (src dst repoName repoPath : String)
    (pre : List String) (bad : String) (post : List String) (hsne : src ≠ "")
    (hupl : (py_startswith src "." || ! py_contains src ':') = true)
    (hparse : parse_repo_path dst = some (repoName, repoPath))
    (hdir : fs.isDir src = true)
    (hrepo : rmt.getRepo repoName = .ok ())
    (hlist : fs.rglobFiles src = pre ++ bad :: post)
    (hok : ∀ rel ∈ pre,
      (uploadOne rmt (path_join repoPath rel)
        (fs.read (path_join src rel))).2.isSuccess = true)
    (hbad : (uploadOne rmt (path_join repoPath bad)
        (fs.read (path_join src bad))).2.isSuccess = false) :
    (copy (some tok) fs rmt src dst).outcome = .exited 1 ∧
    (copy (some tok) fs rmt src dst).calls =
      .getRepo repoName ::
        ((pre.map fun rel =>
          (uploadOne rmt (path_join repoPath rel)
            (fs.read (path_join src rel))).1).flatten ++
         (uploadOne rmt (path_join repoPath bad)
            (fs.read (path_join src bad))).1) ∧
    (∀ rel ∈ pre, ∀ c ∈ (uploadOne rmt (path_join repoPath rel)
        (fs.read (path_join src rel))).1,
      c ∈ (copy (some tok) fs rmt src dst).calls) ∧
    (∀ p s, Call.deleteFile p s ∉ (copy (some tok) fs rmt src dst).calls) := by
  have hrun := copy_dir_run tok fs rmt src dst repoName repoPath hsne hupl hparse hdir hrepo
  rw [hlist] at hrun
  simp only [uploadLoop_abort rmt repoPath
    (fun rel => fs.read (path_join src rel)) bad post pre [] hok hbad] at hrun
  have hcalls : (copy (some tok) fs rmt src dst).calls =
      .getRepo repoName ::
        ((pre.map fun rel =>
          (uploadOne rmt (path_join repoPath rel)
            (fs.read (path_join src rel))).1).flatten ++
         (uploadOne rmt (path_join repoPath bad)
            (fs.read (path_join src bad))).1) := by
    rw [hrun]
    simp
  refine ⟨by rw [hrun], hcalls, ?_, ?_⟩
  · intro rel hrel c hc
    rw [hcalls]
    exact List.mem_cons_of_mem _ (List.mem_append_left _
      (List.mem_flatten.mpr ⟨_, List.mem_map_of_mem _ hrel, hc⟩))
  · intro p s hmem
    rw [hcalls] at hmem
    rcases List.mem_cons.mp hmem with h | h
    · exact absurd h (by simp)
    · rcases List.mem_append.mp h with h | h
      · rcases List.mem_flatten.mp h with ⟨blk, hblk, hc⟩
        rcases List.mem_map.mp hblk with ⟨rel, _, hrel⟩
        rw [← hrel] at hc
        exact uploadOne_no_delete rmt _ _ p s hc
      · exact uploadOne_no_delete rmt _ _ p s h

/-- Witness for C7: with "dest/a/b.txt" creatable but "dest/a/c/d.txt"
failing with HTTP 403, the directory upload of the tree a/b.txt, a/c/d.txt
exits 1, keeps the create of dest/a/b.txt in its trace, and issues no
delete. -/
theorem copy_dir_upload_abort_at_failure_witness :
    (copy (some "t") fsTree rmt403c "d" "u/r:dest").outcome = .exited 1 ∧
    Call.createFile "dest/a/b.txt" [104] ∈
      (copy (some "t") fsTree rmt403c "d" "u/r:dest").calls ∧
    (∀ p s, Call.deleteFile p s ∉ (copy (some "t") fsTree rmt403c "d" "u/r:dest").calls) := by
  have h := copy_dir_upload_abort_at_failure "t" fsTree rmt403c "d" "u/r:dest"
    "u/r" "dest" ["a/b.txt"] "a/c/d.txt" []
    (by decide) (by decide) (by decide) (by decide) rfl (by decide) (by decide) (by decide)
  refine ⟨h.1, ?_, h.2.2.2⟩
  exact h.2.2.1 "a/b.txt" (by decide) (Call.createFile "dest/a/b.txt" [104]) (by decide)

end Gitup
